/-
Verification of pydantic's `_hypothesis_plugin.py` (the module that registers
Hypothesis strategies for pydantic's constrained/custom types).

Modelling conventions:
* A Hypothesis strategy is embedded as the set of values it can generate,
  written as a predicate.  `.map f` is the image under `f`, `.filter p` is the
  intersection with `p`, `st.integers(lo, hi)` is the integer interval,
  `a | b` (one_of) is the union.
* Strategies whose behaviour is delegated to external collaborators
  (Hypothesis's `from_regex` on a user-supplied regex, Python's `sorted`,
  `AnyUrl.build`, ...) are taken as parameters, so the theorems hold for every
  possible behaviour of the collaborator.
* Python bytestrings are `List Nat`, Python strings are `List Char`.
* Validators of pydantic types that are referenced, but whose code is not part
  of the plugin module, are modelled from the spec (see the doc comments).
-/

import Mathlib

namespace PydanticHypothesis

/-! ## `resolve_conint` : strategies for `ConstrainedInt` -/

/-- The constraint attributes of a `ConstrainedInt` subclass, as read by
`resolve_conint`. -/
structure IntConstraints where
  gt : Option Int
  ge : Option Int
  lt : Option Int
  le : Option Int
  multiple_of : Option Int
deriving DecidableEq

/-- Modelled from the spec: pydantic's own validator for `ConstrainedInt`
(`cls.validate`, not part of the plugin module): a value is accepted iff it
satisfies every declared bound (`gt` strictly below it, `lt` strictly above it,
`ge` at most it, `le` at least it) and is an exact multiple of `multiple_of`
when that is set. -/
def conint_validate (c : IntConstraints) (v : Int) : Bool :=
  (match c.gt with | some g => decide (g < v) | none => true) &&
  (match c.ge with | some g => decide (g ≤ v) | none => true) &&
  (match c.lt with | some l => decide (v < l) | none => true) &&
  (match c.le with | some l => decide (v ≤ l) | none => true) &&
  (match c.multiple_of with | some m => v % m == 0 | none => true)

/-- The assertions at the top of `resolve_conint` (`Set gt or ge, but not
both`, likewise for `lt`/`le`); when they fail the resolver raises and the
strategy produces nothing. -/
def resolve_conint_ok (c : IntConstraints) : Bool :=
  (c.gt.isNone || c.ge.isNone) && (c.lt.isNone || c.le.isNone)

/-- The `min_value` computed by `resolve_conint`: `cls.ge`, replaced by
`cls.gt + 1` when `gt` is set. -/
def conint_min (c : IntConstraints) : Option Int :=
  match c.gt with
  | some g => some (g + 1)
  | none => c.ge

/-- The `max_value` computed by `resolve_conint`: `cls.le`, replaced by
`cls.lt - 1` when `lt` is set. -/
def conint_max (c : IntConstraints) : Option Int :=
  match c.lt with
  | some l => some (l - 1)
  | none => c.le

/-- Model of `math.ceil(Fraction(a) / Fraction(b))` : exact rational ceiling
division. -/
def ratCeilDiv (a b : Int) : Int := ⌈(a : ℚ) / (b : ℚ)⌉

/-- Model of `math.floor(Fraction(a) / Fraction(b))` : exact rational floor
division. -/
def ratFloorDiv (a b : Int) : Int := ⌊(a : ℚ) / (b : ℚ)⌋

/-- The set of integers the strategy returned by `resolve_conint` can
generate.  With no `multiple_of` (or `multiple_of == 1`) it is
`st.integers(min_value, max_value)`; otherwise the bounds are divided by the
multiple (rational ceiling/floor), the generated integer is multiplied back
(`.map`), and the result is filtered by `cls.validate`. -/
def genConint (c : IntConstraints) (v : Int) : Prop :=
  resolve_conint_ok c = true ∧
  if c.multiple_of = none ∨ c.multiple_of = some 1 then
    (∀ lo ∈ conint_min c, lo ≤ v) ∧ (∀ hi ∈ conint_max c, v ≤ hi)
  else
    ∃ x : Int,
      (∀ lo ∈ conint_min c, ratCeilDiv lo (c.multiple_of.getD 1) ≤ x) ∧
      (∀ hi ∈ conint_max c, x ≤ ratFloorDiv hi (c.multiple_of.getD 1)) ∧
      v = x * c.multiple_of.getD 1 ∧
      conint_validate c v = true

theorem int_emod_eq_zero_iff_dvd (a b : Int) : a % b = 0 ↔ b ∣ a :=
  ⟨Int.dvd_of_emod_eq_zero, Int.emod_eq_zero_of_dvd⟩

theorem conint_validate_iff (c : IntConstraints) (v : Int) :
    conint_validate c v = true ↔
      ((∀ g ∈ c.gt, g < v) ∧ (∀ g ∈ c.ge, g ≤ v) ∧
       (∀ l ∈ c.lt, v < l) ∧ (∀ l ∈ c.le, v ≤ l) ∧
       (∀ m ∈ c.multiple_of, m ∣ v)) := by
  unfold conint_validate
  cases c.gt <;> cases c.ge <;> cases c.lt <;> cases c.le <;> cases c.multiple_of <;>
    simp [Option.mem_def, int_emod_eq_zero_iff_dvd, and_assoc]

/-- C4: every integer generated by `resolve_conint` satisfies all declared
bounds — strictly above `gt`, strictly below `lt`, between `ge` and `le` —
and is an exact multiple of `multiple_of` when set. -/
theorem conint_sound (c : IntConstraints) (v : Int) (h : genConint c v) :
    (∀ g ∈ c.gt, g < v) ∧ (∀ g ∈ c.ge, g ≤ v) ∧
    (∀ l ∈ c.lt, v < l) ∧ (∀ l ∈ c.le, v ≤ l) ∧
    (∀ m ∈ c.multiple_of, m ∣ v) := by
  obtain ⟨hok, h⟩ := h
  by_cases hmul : c.multiple_of = none ∨ c.multiple_of = some 1
  · rw [if_pos hmul] at h
    obtain ⟨hlo, hhi⟩ := h
    refine ⟨?_, ?_, ?_, ?_, ?_⟩
    · intro g hg
      have := hlo (g + 1) (by simp [conint_min, Option.mem_def.mp hg])
      omega
    · intro g hg
      cases hgt : c.gt with
      | some g0 =>
        -- the resolver's assertion: `gt` and `ge` are not both set
        exfalso
        have := hok
        unfold resolve_conint_ok at this
        rw [hgt, Option.mem_def.mp hg] at this
        simp at this
      | none => exact hlo g (by simp [conint_min, hgt, Option.mem_def.mp hg])
    · intro l hl
      have := hhi (l - 1) (by simp [conint_max, Option.mem_def.mp hl])
      omega
    · intro l hl
      cases hlt : c.lt with
      | some l0 =>
        exfalso
        have := hok
        unfold resolve_conint_ok at this
        rw [hlt, Option.mem_def.mp hl] at this
        simp at this
      | none => exact hhi l (by simp [conint_max, hlt, Option.mem_def.mp hl])
    · intro m hm
      rcases hmul with h1 | h1
      · simp [Option.mem_def.mp hm] at h1
      · rw [Option.mem_def.mp hm] at h1
        simp only [Option.some.injEq] at h1
        subst h1
        exact one_dvd v
  · rw [if_neg hmul] at h
    obtain ⟨x, _, _, _, hval⟩ := h
    exact (conint_validate_iff c v).mp hval

/-- C4 witness: `conint(ge=0, le=10)` can generate `5`, which satisfies all
the declared constraints. -/
theorem conint_sound_witness :
    (∀ g ∈ (IntConstraints.mk none (some 0) none (some 10) none).gt, g < 5) ∧
    (∀ g ∈ (IntConstraints.mk none (some 0) none (some 10) none).ge, g ≤ 5) ∧
    (∀ l ∈ (IntConstraints.mk none (some 0) none (some 10) none).lt, (5:Int) < l) ∧
    (∀ l ∈ (IntConstraints.mk none (some 0) none (some 10) none).le, (5:Int) ≤ l) ∧
    (∀ m ∈ (IntConstraints.mk none (some 0) none (some 10) none).multiple_of, m ∣ 5) :=
  conint_sound (IntConstraints.mk none (some 0) none (some 10) none) 5
    (by
      refine ⟨by decide, ?_⟩
      rw [if_pos (Or.inl rfl)]
      constructor <;> intro a ha <;>
        simp [conint_min, conint_max, Option.mem_def] at ha <;> omega)

theorem ratCeilDiv_le_mul (lo m x : Int) (hm : 0 < m)
    (h : ratCeilDiv lo m ≤ x) : lo ≤ x * m := by
  have hmq : (0:ℚ) < (m:ℚ) := by exact_mod_cast hm
  unfold ratCeilDiv at h
  have h1 : (lo:ℚ) / (m:ℚ) ≤ (x:ℚ) := by
    calc (lo:ℚ)/(m:ℚ) ≤ ((⌈(lo:ℚ)/(m:ℚ)⌉ : Int) : ℚ) := Int.le_ceil _
    _ ≤ (x:ℚ) := by exact_mod_cast h
  have := (div_le_iff₀ hmq).mp h1
  exact_mod_cast this

theorem mul_le_ratFloorDiv (hi m x : Int) (hm : 0 < m)
    (h : x ≤ ratFloorDiv hi m) : x * m ≤ hi := by
  have hmq : (0:ℚ) < (m:ℚ) := by exact_mod_cast hm
  unfold ratFloorDiv at h
  have h1 : (x:ℚ) ≤ (hi:ℚ) / (m:ℚ) := by
    calc (x:ℚ) ≤ ((⌊(hi:ℚ)/(m:ℚ)⌋ : Int) : ℚ) := by exact_mod_cast h
    _ ≤ (hi:ℚ)/(m:ℚ) := Int.floor_le _
  have := (le_div_iff₀ hmq).mp h1
  exact_mod_cast this

/-- C9: in the `multiple_of` branch of `resolve_conint` (with positive
multiple `m ≠ 1`), every integer `x` between the rational-ceiling lower bound
and the rational-floor upper bound is mapped to `x * m`, which lies within the
effective inclusive bounds, and the trailing `.filter(cls.validate)` accepts
it. -/
theorem conint_multiple_map_sound (c : IntConstraints) (m x : Int)
    (hok : resolve_conint_ok c = true)
    (hm : c.multiple_of = some m) (hm1 : m ≠ 1) (hmpos : 0 < m)
    (h1 : ∀ lo ∈ conint_min c, ratCeilDiv lo m ≤ x)
    (h2 : ∀ hi ∈ conint_max c, x ≤ ratFloorDiv hi m) :
    (∀ lo ∈ conint_min c, lo ≤ x * m) ∧
    (∀ hi ∈ conint_max c, x * m ≤ hi) ∧
    conint_validate c (x * m) = true := by
  have hlo : ∀ lo ∈ conint_min c, lo ≤ x * m := fun lo h =>
    ratCeilDiv_le_mul lo m x hmpos (h1 lo h)
  have hhi : ∀ hi ∈ conint_max c, x * m ≤ hi := fun hi h =>
    mul_le_ratFloorDiv hi m x hmpos (h2 hi h)
  refine ⟨hlo, hhi, (conint_validate_iff c (x * m)).mpr ⟨?_, ?_, ?_, ?_, ?_⟩⟩
  · intro g hg
    have := hlo (g + 1) (by simp [conint_min, Option.mem_def.mp hg])
    omega
  · intro g hg
    cases hgt : c.gt with
    | some g0 =>
      exfalso
      unfold resolve_conint_ok at hok
      rw [hgt, Option.mem_def.mp hg] at hok
      simp at hok
    | none => exact hlo g (by simp [conint_min, hgt, Option.mem_def.mp hg])
  · intro l hl
    have := hhi (l - 1) (by simp [conint_max, Option.mem_def.mp hl])
    omega
  · intro l hl
    cases hlt : c.lt with
    | some l0 =>
      exfalso
      unfold resolve_conint_ok at hok
      rw [hlt, Option.mem_def.mp hl] at hok
      simp at hok
    | none => exact hhi l (by simp [conint_max, hlt, Option.mem_def.mp hl])
  · intro m' hm'
    rw [hm] at hm'
    rw [Option.mem_def, Option.some.injEq] at hm'
    subst hm'
    exact dvd_mul_left _ x

/-- C9 witness: `conint(gt=2, le=10, multiple_of=3)` with `x = 1`:
`ceil(3/3) = 1 ≤ 1 ≤ 3 = floor(10/3)` and the mapped value `3` passes all
checks. -/
theorem conint_multiple_map_sound_witness :
    (∀ lo ∈ conint_min (IntConstraints.mk (some 2) none none (some 10) (some 3)),
      lo ≤ 1 * 3) ∧
    (∀ hi ∈ conint_max (IntConstraints.mk (some 2) none none (some 10) (some 3)),
      1 * 3 ≤ hi) ∧
    conint_validate (IntConstraints.mk (some 2) none none (some 10) (some 3)) (1 * 3) = true :=
  conint_multiple_map_sound (IntConstraints.mk (some 2) none none (some 10) (some 3)) 3 1
    (by decide) rfl (by decide) (by decide)
    (by
      intro lo hlo
      simp [conint_min, Option.mem_def] at hlo
      subst hlo
      unfold ratCeilDiv
      rw [Int.ceil_le]
      norm_num)
    (by
      intro hi hhi
      simp [conint_max, Option.mem_def] at hhi
      subst hhi
      unfold ratFloorDiv
      rw [Int.le_floor]
      norm_num)

/-! ## Payment card numbers: `fix_luhn_digit` and `card_patterns` -/

/-- One step of the Luhn doubling rule: double the digit and subtract 9 when
the result exceeds 9. -/
def luhnDouble (d : Nat) : Nat := if 2 * d > 9 then 2 * d - 9 else 2 * d

/-- Modelled from the spec: `PaymentCardNumber.validate_luhn_check_digit`
(pydantic's own validator, referenced but not defined in the plugin module;
the spec calls this the "Luhn check digits" constraint).  Following the Luhn
algorithm, it sums the check digit (the last one) with every earlier digit,
doubling the digits at positions `i` with `i % 2 == length % 2` (subtracting
9 from a doubled digit above 9), and accepts iff the sum is divisible
by 10. -/
def luhn_valid (ds : List Nat) : Bool :=
  (ds.getLastD 0 +
    (List.range (ds.length - 1)).foldl
      (fun acc i =>
        acc + (if i % 2 = ds.length % 2 then luhnDouble (ds.getD i 0) else ds.getD i 0))
      0) % 10 == 0

/-- The function `fix_luhn_digit`: replace the trailing placeholder by the first decimal
digit that makes `validate_luhn_check_digit` pass; `none` models the
`AssertionError` raised when no digit works.  The input is the list of digits
before the placeholder `X`. -/
def fix_luhn_digit (pre : List Nat) : Option (List Nat) :=
  ((List.range 10).find? fun d => luhn_valid (pre ++ [d])).map (fun d => pre ++ [d])

/-- The Luhn sum contributed by the digits before the check digit, for a card
of total length `pre.length + 1`. -/
def luhnPrefixSum (pre : List Nat) : Nat :=
  (List.range pre.length).foldl
    (fun acc i =>
      acc + (if i % 2 = (pre.length + 1) % 2 then luhnDouble (pre.getD i 0) else pre.getD i 0))
    0

theorem foldl_range_congr (f g : Nat → Nat → Nat) (a n : Nat)
    (h : ∀ acc i, i < n → f acc i = g acc i) :
    (List.range n).foldl f a = (List.range n).foldl g a := by
  induction n generalizing a with
  | zero => simp
  | succ k ih =>
    rw [List.range_succ, List.foldl_append, List.foldl_append]
    rw [ih a (fun acc i hi => h acc i (Nat.lt_succ_of_lt hi))]
    simp [h _ k (Nat.lt_succ_self k)]

theorem luhn_valid_concat (pre : List Nat) (d : Nat) :
    luhn_valid (pre ++ [d]) = ((d + luhnPrefixSum pre) % 10 == 0) := by
  unfold luhn_valid luhnPrefixSum
  have hlen : (pre ++ [d]).length = pre.length + 1 := by simp
  rw [hlen, List.getLastD_concat, Nat.add_sub_cancel]
  have hfold :
      (List.range pre.length).foldl
        (fun acc i =>
          acc + (if i % 2 = (pre.length + 1) % 2
            then luhnDouble ((pre ++ [d]).getD i 0) else (pre ++ [d]).getD i 0))
        0 =
      (List.range pre.length).foldl
        (fun acc i =>
          acc + (if i % 2 = (pre.length + 1) % 2
            then luhnDouble (pre.getD i 0) else pre.getD i 0))
        0 :=
    foldl_range_congr _ _ 0 pre.length (fun acc i hi => by
      rw [List.getD_append _ _ _ _ hi])
  rw [hfold]

theorem luhn_digit_exists (pre : List Nat) :
    ∃ d, d < 10 ∧ luhn_valid (pre ++ [d]) = true := by
  refine ⟨(10 - luhnPrefixSum pre % 10) % 10, by omega, ?_⟩
  rw [luhn_valid_concat]
  simp only [beq_iff_eq]
  omega

/-- C10: for every list of digits before the placeholder, some decimal digit
makes the Luhn check pass, so the loop in `fix_luhn_digit` always returns and
the `AssertionError` branch is unreachable. -/
theorem fix_luhn_digit_total (pre : List Nat) :
    (fix_luhn_digit pre).isSome = true ∧
    ∃ d, d < 10 ∧ luhn_valid (pre ++ [d]) = true := by
  obtain ⟨d, hd, hv⟩ := luhn_digit_exists pre
  refine ⟨?_, d, hd, hv⟩
  unfold fix_luhn_digit
  rw [Option.isSome_map']
  rw [List.find?_isSome]
  exact ⟨d, by simp [List.mem_range, hd], hv⟩

/-- All entries are decimal digits. -/
def digitList (ds : List Nat) : Bool := ds.all (· < 10)

/-- Digit strings (before the final `X`) matched by `4[0-9]{14}X` (Visa). -/
def visa_body (ds : List Nat) : Bool :=
  (ds.length == 15) && (ds.head? == some 4) && digitList ds

/-- Digit strings matched by `5[12345][0-9]{13}X` (Mastercard). -/
def mastercard_body (ds : List Nat) : Bool :=
  (ds.length == 15) && (ds.head? == some 5) &&
  [1, 2, 3, 4, 5].contains (ds.getD 1 0) && digitList ds

/-- Digit strings matched by `3[47][0-9]{12}X` (American Express). -/
def amex_body (ds : List Nat) : Bool :=
  (ds.length == 14) && (ds.head? == some 3) &&
  ((ds.getD 1 0 == 4) || (ds.getD 1 0 == 7)) && digitList ds

/-- Digit strings matched by `[0-9]{11,18}X` (other cards). -/
def other_body (ds : List Nat) : Bool :=
  decide (11 ≤ ds.length) && decide (ds.length ≤ 18) && digitList ds

/-- The union of the `card_patterns` regexes, restricted to the digits before
the placeholder `X`. -/
def card_pattern_body (ds : List Nat) : Bool :=
  visa_body ds || mastercard_body ds || amex_body ds || other_body ds

/-- C2: for every digit string produced by the `card_patterns` regexes (minus
the trailing `X`), `fix_luhn_digit` replaces the placeholder by a decimal
digit such that `validate_luhn_check_digit` accepts the result; hence every
generated card number passes the Luhn check. -/
theorem fix_luhn_digit_sound (ds : List Nat) (_h : card_pattern_body ds = true) :
    ∃ d, d < 10 ∧ fix_luhn_digit ds = some (ds ++ [d]) ∧
      luhn_valid (ds ++ [d]) = true := by
  obtain ⟨d0, hd0, hv0⟩ := luhn_digit_exists ds
  have hsome : ((List.range 10).find? fun d => luhn_valid (ds ++ [d])).isSome :=
    List.find?_isSome.mpr ⟨d0, by simp [List.mem_range, hd0], hv0⟩
  obtain ⟨d, hfind⟩ := Option.isSome_iff_exists.mp hsome
  refine ⟨d, ?_, ?_, ?_⟩
  · have := List.mem_of_find?_eq_some hfind
    simpa [List.mem_range] using this
  · unfold fix_luhn_digit
    rw [hfind]
    rfl
  · have := List.find?_some hfind
    simpa using this

/-- C2 witness: the Visa-shaped digit string `4 0 0 0 0 0 0 0 0 0 0 0 0 0 0`
gets a valid Luhn check digit. -/
theorem fix_luhn_digit_sound_witness :
    ∃ d, d < 10 ∧
      fix_luhn_digit [4, 0, 0, 0, 0, 0, 0, 0, 0, 0, 0, 0, 0, 0, 0] =
        some ([4, 0, 0, 0, 0, 0, 0, 0, 0, 0, 0, 0, 0, 0, 0] ++ [d]) ∧
      luhn_valid ([4, 0, 0, 0, 0, 0, 0, 0, 0, 0, 0, 0, 0, 0, 0] ++ [d]) = true :=
  fix_luhn_digit_sound [4, 0, 0, 0, 0, 0, 0, 0, 0, 0, 0, 0, 0, 0, 0] (by decide)

/-! ## `resolve_conbytes` : strategies for `ConstrainedBytes` -/

/-- A word byte for Python's `\w` in an ASCII (bytes) regex:
`[a-zA-Z0-9_]`. -/
def isWordByte (b : Nat) : Bool :=
  (48 ≤ b && b ≤ 57) || (65 ≤ b && b ≤ 90) || (97 ≤ b && b ≤ 122) || b == 95

/-- Python's regex `.` over bytes: any byte except newline. -/
def isDotByte (b : Nat) : Bool := b != 10

/-- The ASCII whitespace bytes stripped by `bytes.strip()`:
space, `\t`, `\n`, `\x0b`, `\x0c`, `\r`. -/
def isSpaceByte (b : Nat) : Bool :=
  b == 32 || b == 9 || b == 10 || b == 11 || b == 12 || b == 13

/-- The constraint attributes of a `ConstrainedBytes` subclass read by
`resolve_conbytes`. -/
structure BytesConstraints where
  min_length : Option Nat
  max_length : Option Nat
  strip_whitespace : Bool
deriving DecidableEq

/-- Lower bound of the `repeats` counter built by `resolve_conbytes`:
`min_size - 2 if min_size > 2 else 0`. -/
def conbytes_rep_lo (min_size : Nat) : Nat :=
  if min_size > 2 then min_size - 2 else 0

/-- Upper bound of the `repeats` counter built by `resolve_conbytes`:
`max_size - 2 if (max_size or 0) > 2 else ''` (`none` = unbounded). -/
def conbytes_rep_hi (max_size : Option Nat) : Option Nat :=
  match max_size with
  | some m => if m > 2 then some (m - 2) else none
  | none => none

/-- The language of the byte regex `\W.{lo,hi}\W` (fullmatch): a non-word
byte, then between `lo` and `hi` non-newline bytes, then a non-word byte. -/
def conbytesCore (lo : Nat) (hi : Option Nat) (s : List Nat) : Prop :=
  ∃ first mid last, s = first :: mid ++ [last] ∧
    isWordByte first = false ∧ isWordByte last = false ∧
    (∀ b ∈ mid, isDotByte b = true) ∧
    lo ≤ mid.length ∧ (∀ h ∈ hi, mid.length ≤ h)

/-- The set of bytestrings the strategy returned by `resolve_conbytes` can
generate.  Without `strip_whitespace` it is `st.binary(min_size, max_size)`;
with it, the fullmatch language of `\W.{repeats}\W` (for `min_size ≥ 2`),
`\W(.{repeats}\W)?` (for `min_size == 1`) or `(\W(.{repeats}\W)?)?` (for
`min_size == 0`). -/
def genConbytes (c : BytesConstraints) (s : List Nat) : Prop :=
  if c.strip_whitespace = false then
    c.min_length.getD 0 ≤ s.length ∧ (∀ m ∈ c.max_length, s.length ≤ m)
  else if 2 ≤ c.min_length.getD 0 then
    conbytesCore (conbytes_rep_lo (c.min_length.getD 0)) (conbytes_rep_hi c.max_length) s
  else if c.min_length.getD 0 = 1 then
    (∃ b, isWordByte b = false ∧ s = [b]) ∨
    conbytesCore (conbytes_rep_lo (c.min_length.getD 0)) (conbytes_rep_hi c.max_length) s
  else
    s = [] ∨ (∃ b, isWordByte b = false ∧ s = [b]) ∨
    conbytesCore (conbytes_rep_lo (c.min_length.getD 0)) (conbytes_rep_hi c.max_length) s

/-- Model of `bytes.strip()`: drop ASCII whitespace from both ends. -/
def bytesStrip (s : List Nat) : List Nat :=
  ((s.dropWhile isSpaceByte).reverse.dropWhile isSpaceByte).reverse

/-- Modelled from the spec: pydantic's own validator for `ConstrainedBytes`
(referenced but not defined in the plugin module): with `strip_whitespace`
it strips ASCII whitespace from both ends and then enforces
`min_length`/`max_length` on the stripped value (the spec's
"non-empty-after-strip" residual constraint). -/
def conbytes_validate (c : BytesConstraints) (s : List Nat) : Bool :=
  decide (c.min_length.getD 0 ≤ (if c.strip_whitespace then bytesStrip s else s).length) &&
  (match c.max_length with
   | some m => decide ((if c.strip_whitespace then bytesStrip s else s).length ≤ m)
   | none => true)

/-- C1 (refuted): the registered strategies are not all sound.  With
`conbytes(min_length=1, max_length=4, strip_whitespace=True)` the strategy
can generate the single space `b' '` (the pattern `\W(.{0,2}\W)?` uses `\W`,
which matches whitespace), and the type's own validator rejects it: stripping
leaves `b''`, shorter than `min_length`. -/
theorem conbytes_strategy_unsound :
    genConbytes (BytesConstraints.mk (some 1) (some 4) true) [32] ∧
    conbytes_validate (BytesConstraints.mk (some 1) (some 4) true) [32] = false := by
  refine ⟨?_, by decide⟩
  unfold genConbytes
  rw [if_neg (by decide), if_neg (by decide), if_pos (by decide)]
  exact Or.inl ⟨32, by decide, rfl⟩

/-- C5 (refuted): with `conbytes(min_length=3, max_length=3,
strip_whitespace=True)` the strategy can generate `b'   '` (three spaces,
matching `\W.{1,1}\W` since `\W` matches whitespace), which starts and ends
with whitespace; stripping changes it and the stripped value violates
`min_length`, so the validator rejects it. -/
theorem conbytes_whitespace_boundary :
    genConbytes (BytesConstraints.mk (some 3) (some 3) true) [32, 32, 32] ∧
    isSpaceByte 32 = true ∧
    bytesStrip [32, 32, 32] ≠ [32, 32, 32] ∧
    conbytes_validate (BytesConstraints.mk (some 3) (some 3) true) [32, 32, 32] = false := by
  refine ⟨?_, by decide, by decide, by decide⟩
  unfold genConbytes
  rw [if_neg (by decide), if_pos (by decide)]
  refine ⟨32, [32], 32, rfl, by decide, by decide, by decide, ?_, ?_⟩
  · show conbytes_rep_lo 3 ≤ 1
    decide
  · intro h hh
    simp [conbytes_rep_hi] at hh
    simp [hh]

/-! ## `resolve_constr` : strategies for `ConstrainedStr` -/

/-- The constraint attributes of a `ConstrainedStr` subclass read by
`resolve_constr`; `has_regex` records whether `cls.regex` is set (its
language is an external parameter). -/
structure StrConstraints where
  min_length : Option Nat
  max_length : Option Nat
  strip_whitespace : Bool
  has_regex : Bool
deriving DecidableEq

/-- The set of strings the strategy returned by `resolve_constr` can
generate.  External collaborators are parameters: `R` is what Hypothesis
generates for `st.from_regex(cls.regex)` (no fullmatch), `WPAT` what it
generates for the whitespace-boundary pattern built by the strip branch, and
`stripFn` is Python's `str.strip`.  The final length filters of the source
are the second conjunct. -/
def genConstr (c : StrConstraints) (R WPAT : List Char → Prop)
    (stripFn : List Char → List Char) (s : List Char) : Prop :=
  if c.has_regex = false ∧ c.strip_whitespace = false then
    c.min_length.getD 0 ≤ s.length ∧ (∀ m ∈ c.max_length, s.length ≤ m)
  else
    (if c.has_regex then
      (if c.strip_whitespace then R s ∧ stripFn s = s else R s)
     else WPAT s) ∧
    (if c.min_length.getD 0 = 0 ∧ c.max_length = none then True
     else
       match c.max_length with
       | none => c.min_length.getD 0 ≤ s.length
       | some mx => c.min_length.getD 0 ≤ s.length ∧ s.length ≤ mx)

/-- C6: every string generated by `resolve_constr` has length at least
`min_length` (missing = 0) and at most `max_length` when set, in all four
regex/strip-whitespace configurations, for every behaviour of the external
regex generators and of `str.strip`. -/
theorem constr_length_sound (c : StrConstraints) (R WPAT : List Char → Prop)
    (stripFn : List Char → List Char) (s : List Char)
    (h : genConstr c R WPAT stripFn s) :
    c.min_length.getD 0 ≤ s.length ∧ (∀ m ∈ c.max_length, s.length ≤ m) := by
  unfold genConstr at h
  by_cases h1 : c.has_regex = false ∧ c.strip_whitespace = false
  · rw [if_pos h1] at h
    exact h
  · rw [if_neg h1] at h
    obtain ⟨-, h2⟩ := h
    by_cases h3 : c.min_length.getD 0 = 0 ∧ c.max_length = none
    · refine ⟨by rw [h3.1]; exact Nat.zero_le _, ?_⟩
      intro m hm
      rw [h3.2] at hm
      simp at hm
    · rw [if_neg h3] at h2
      cases hmx : c.max_length with
      | none =>
        rw [hmx] at h2
        refine ⟨h2, ?_⟩
        intro m hm
        simp at hm
      | some mx =>
        rw [hmx] at h2
        obtain ⟨ha, hb⟩ := h2
        refine ⟨ha, ?_⟩
        intro m hm
        rw [Option.mem_def, Option.some.injEq] at hm
        omega

/-- C6 witness: `constr(min_length=1, max_length=3, regex=...)` generating
`"a"` (with a trivial external regex language) satisfies the length
bounds. -/
theorem constr_length_sound_witness :
    (StrConstraints.mk (some 1) (some 3) false true).min_length.getD 0 ≤
      (['a'] : List Char).length ∧
    (∀ m ∈ (StrConstraints.mk (some 1) (some 3) false true).max_length,
      (['a'] : List Char).length ≤ m) :=
  constr_length_sound (StrConstraints.mk (some 1) (some 3) false true)
    (fun _ => True) (fun _ => False) id ['a']
    (by
      unfold genConstr
      rw [if_neg (by decide)]
      refine ⟨trivial, ?_⟩
      rw [if_neg (by decide)]
      exact ⟨by decide, by decide⟩)

/-! ## `resolve_anyurl` : strategies for the URL types -/

/-- The class attributes of a pydantic URL type read by `resolve_anyurl`. -/
structure UrlConstraints where
  min_length : Nat
  max_length : Nat
  allowed_schemes : List (List Char)
  tld_required : Bool
  user_required : Bool

/-- The keyword arguments drawn by the `st.builds(cls.build, ...)` strategy
in `resolve_anyurl`. -/
structure UrlParts where
  scheme : List Char
  user : Option (List Char)
  password : Option (List Char)
  host : List Char
  port : Option (List Char)
  path : Option (List Char)
  query : Option (List Char)
  fragment : Option (List Char)

/-- The external collaborators of `resolve_anyurl`, taken as parameters so
the theorem holds for every behaviour: the languages Hypothesis generates for
pydantic's `ascii_domain_regex()`/`int_domain_regex()`, the ip regex and the
per-field regexes, the `has_tld` matcher (fullmatch against a domain regex
with a non-empty `tld` group), Python's string ordering used by `sorted`,
`str` on port numbers, and pydantic's `cls.build`. -/
structure UrlExternals where
  asciiDomain : List Char → Prop
  intDomain : List Char → Prop
  ipLiteral : List Char → Prop
  schemeRe : List Char → Prop
  userRe : List Char → Prop
  passwordRe : List Char → Prop
  pathRe : List Char → Prop
  queryRe : List Char → Prop
  fragmentRe : List Char → Prop
  hasTld : List Char → Bool
  le : List Char → List Char → Bool
  natStr : Nat → List Char
  build : UrlParts → List Char

/-- The set of keyword-argument tuples the `st.builds` strategy inside
`resolve_anyurl` can draw: the scheme is sampled from the sorted allowed
schemes (or any scheme-regex match when no whitelist), the user may be absent
only when not required, hosts come from the domain strategies filtered by
`has_tld` when a TLD is required (otherwise domains or ip literals), and the
port is the decimal string of an integer in `[0, 2^16 - 1]`. -/
def genAnyurlParts (c : UrlConstraints) (E : UrlExternals) (p : UrlParts) : Prop :=
  (if c.allowed_schemes ≠ [] then p.scheme ∈ c.allowed_schemes.mergeSort E.le
   else E.schemeRe p.scheme) ∧
  (match p.user with
   | none => c.user_required = false
   | some u => E.userRe u) ∧
  (match p.password with
   | none => True
   | some pw => E.passwordRe pw) ∧
  (if c.tld_required then
    (E.asciiDomain p.host ∨ E.intDomain p.host) ∧ E.hasTld p.host = true
   else
    (E.asciiDomain p.host ∨ E.intDomain p.host) ∨ E.ipLiteral p.host) ∧
  (match p.port with
   | none => True
   | some pt => ∃ n : Nat, n ≤ 2 ^ 16 - 1 ∧ pt = E.natStr n) ∧
  (match p.path with | none => True | some x => E.pathRe x) ∧
  (match p.query with | none => True | some x => E.queryRe x) ∧
  (match p.fragment with | none => True | some x => E.fragmentRe x)

/-- A pair of drawn keyword arguments and the URL built from them that
survives the final length filter of `resolve_anyurl`
(`cls.min_length <= len(url) <= cls.max_length`). -/
def genAnyurl (c : UrlConstraints) (E : UrlExternals) (p : UrlParts)
    (url : List Char) : Prop :=
  genAnyurlParts c E p ∧ url = E.build p ∧
  c.min_length ≤ url.length ∧ url.length ≤ c.max_length

/-- C7: every URL generated by `resolve_anyurl` has length between
`cls.min_length` and `cls.max_length`; when `allowed_schemes` is non-empty
the drawn scheme belongs to it; and when `tld_required` holds, the host comes
from the ascii or international domain regex and satisfies `has_tld`. -/
theorem anyurl_sound (c : UrlConstraints) (E : UrlExternals) (p : UrlParts)
    (url : List Char) (h : genAnyurl c E p url) :
    (c.min_length ≤ url.length ∧ url.length ≤ c.max_length) ∧
    (c.allowed_schemes ≠ [] → p.scheme ∈ c.allowed_schemes) ∧
    (c.tld_required = true →
      (E.asciiDomain p.host ∨ E.intDomain p.host) ∧ E.hasTld p.host = true) := by
  obtain ⟨hp, -, hmin, hmax⟩ := h
  obtain ⟨hs, -, -, hh, -⟩ := hp
  refine ⟨⟨hmin, hmax⟩, ?_, ?_⟩
  · intro hne
    rw [if_pos hne] at hs
    exact List.mem_mergeSort.mp hs
  · intro ht
    rw [if_pos ht] at hh
    exact hh

/-- C7 witness: an `http` URL of length 1 for a type with
`allowed_schemes = {http}`, `tld_required`, length bounds 1 and 10, under
trivial external collaborators. -/
theorem anyurl_sound_witness :
    ((1 ≤ (['x'] : List Char).length ∧ (['x'] : List Char).length ≤ 10) ∧
     (([['h', 't', 't', 'p']] : List (List Char)) ≠ [] →
       (['h', 't', 't', 'p'] : List Char) ∈
         ([['h', 't', 't', 'p']] : List (List Char))) ∧
     (true = true → (True ∨ True) ∧ true = true)) := by
  exact anyurl_sound
    ⟨1, 10, [['h', 't', 't', 'p']], true, false⟩
    ⟨fun _ => True, fun _ => True, fun _ => True, fun _ => True, fun _ => True,
     fun _ => True, fun _ => True, fun _ => True, fun _ => True,
     fun _ => true, fun _ _ => true, fun _ => [], fun _ => ['x']⟩
    ⟨['h', 't', 't', 'p'], none, none, ['a'], none, none, none, none⟩
    ['x']
    ⟨⟨by rw [if_pos (by decide)]; simp [List.mergeSort],
      rfl, trivial, by rw [if_pos rfl]; exact ⟨Or.inl trivial, rfl⟩,
      trivial, trivial, trivial, trivial⟩,
     rfl, by decide, by decide⟩

/-! ## The registration table (module import effects) -/

/-- The pydantic types for which the module registers a Hypothesis
strategy. -/
inductive PydType
  | EmailStr | NameEmail | PyObject | Color | Json | JsonWrapper
  | PaymentCardNumber | AnyUrl | AnyHttpUrl | HttpUrl | PostgresDsn | RedisDsn
  | UUID1 | UUID3 | UUID4 | UUID5 | SecretBytes | SecretStr
  | IPvAnyAddress | IPvAnyInterface | IPvAnyNetwork | StrictBool
  | ConstrainedBytes | ConstrainedDecimal | ConstrainedFloat | ConstrainedInt
  | ConstrainedList | ConstrainedSet | ConstrainedStr
deriving DecidableEq, Fintype

/-- The two registrations guarded by the `import_email_validator()`
try/except. -/
def email_registrations : List PydType := [.EmailStr, .NameEmail]

/-- The registrations performed unconditionally, in source order. -/
def unconditional_registrations : List PydType :=
  [.PyObject, .Color, .Json, .JsonWrapper, .PaymentCardNumber,
   .AnyUrl, .AnyHttpUrl, .HttpUrl, .PostgresDsn, .RedisDsn,
   .UUID1, .UUID3, .UUID4, .UUID5, .SecretBytes, .SecretStr,
   .IPvAnyAddress, .IPvAnyInterface, .IPvAnyNetwork, .StrictBool,
   .ConstrainedBytes, .ConstrainedDecimal, .ConstrainedFloat, .ConstrainedInt,
   .ConstrainedList, .ConstrainedSet, .ConstrainedStr]

/-- All types registered when the module is imported; `emailOk` records
whether the optional email-validator dependency imported successfully. -/
def registrations (emailOk : Bool) : List PydType :=
  (if emailOk then email_registrations else []) ++ unconditional_registrations

/-- C3: when the optional email-validator dependency is absent, exactly the
`EmailStr` and `NameEmail` registrations are skipped — every other type is
registered either way — and both email strategies are registered when the
dependency is present. -/
theorem email_registration_guard :
    PydType.EmailStr ∈ registrations true ∧
    PydType.NameEmail ∈ registrations true ∧
    PydType.EmailStr ∉ registrations false ∧
    PydType.NameEmail ∉ registrations false ∧
    (∀ t : PydType, t ≠ PydType.EmailStr → t ≠ PydType.NameEmail →
      t ∈ registrations false ∧ t ∈ registrations true) := by
  decide

/-- C3 witness: `PaymentCardNumber` is registered with and without the
email-validator dependency. -/
theorem email_registration_guard_witness :
    PydType.PaymentCardNumber ∈ registrations false ∧
    PydType.PaymentCardNumber ∈ registrations true :=
  email_registration_guard.2.2.2.2 PydType.PaymentCardNumber
    (by decide) (by decide)

/-- A top-level effect of importing the module.  `mutateExternalState` stands
for any mutation of pydantic's types, validators or other program state; the
theorem below shows the trace never contains it. -/
inductive ModuleEffect
  | register (t : PydType)
  | defineFunction
  | setModuleConstant
  | checkEmailValidator
  | mutateExternalState
deriving DecidableEq

/-- The top-level effect trace of importing `_hypothesis_plugin`, transcribed
statement by statement in source order (`emailOk` is whether
`import_email_validator()` succeeded; `defineFunction` covers the resolver
definitions, `setModuleConstant` the `_color_regexes` and `card_patterns`
assignments). -/
def module_effects (emailOk : Bool) : List ModuleEffect :=
  [.checkEmailValidator] ++
  (if emailOk then [.register .EmailStr, .register .NameEmail] else []) ++
  [.register .PyObject,
   .setModuleConstant,
   .register .Color,
   .register .Json,
   .defineFunction, .register .JsonWrapper,
   .defineFunction,
   .setModuleConstant,
   .register .PaymentCardNumber,
   .defineFunction,
   .register .AnyUrl, .register .AnyHttpUrl, .register .HttpUrl,
   .register .PostgresDsn, .register .RedisDsn,
   .register .UUID1, .register .UUID3, .register .UUID4, .register .UUID5,
   .register .SecretBytes, .register .SecretStr,
   .register .IPvAnyAddress, .register .IPvAnyInterface, .register .IPvAnyNetwork,
   .register .StrictBool,
   .defineFunction, .register .ConstrainedBytes,
   .defineFunction, .register .ConstrainedDecimal,
   .defineFunction, .register .ConstrainedFloat,
   .defineFunction, .register .ConstrainedInt,
   .defineFunction, .register .ConstrainedList,
   .defineFunction, .register .ConstrainedSet,
   .defineFunction, .register .ConstrainedStr]

/-- The types registered by an effect trace. -/
def registeredTypes (es : List ModuleEffect) : List PydType :=
  es.filterMap (fun e => match e with | .register t => some t | _ => none)

/-- C8: importing the module only checks the optional dependency, defines
helper functions and module constants, and calls `register_type_strategy`
once per supported type; no effect in the trace mutates pydantic's types,
validators or any other external state. -/
theorem module_import_effects (b : Bool) :
    (∀ e ∈ module_effects b, e ≠ ModuleEffect.mutateExternalState) ∧
    registeredTypes (module_effects b) = registrations b ∧
    (registeredTypes (module_effects b)).Nodup := by
  cases b <;> decide

/-- C8 witness: the `PyObject` registration effect is not a mutation. -/
theorem module_import_effects_witness :
    ModuleEffect.register PydType.PyObject ≠ ModuleEffect.mutateExternalState :=
  (module_import_effects true).1 (ModuleEffect.register PydType.PyObject)
    (by decide)

end PydanticHypothesis
